import Mathlib

/-!
Shallow embedding of the IMSErious per-handler scheduler and its message
model (src/message.rs, src/config.rs, src/handler.rs), with proofs about
the embedded definitions.  Durations and instants are modelled as natural
numbers on a monotonic clock whose zero is the scheduler task's start.
-/

/-- The closed enumeration of notification kinds (src/message.rs, `ImseEvent`). -/
inductive ImseEvent
  | FlagsClear
  | FlagsSet
  | MailboxCreate
  | MailboxDelete
  | MailboxRename
  | MailboxSubscribe
  | MailboxUnsubscribe
  | MessageAppend
  | MessageExpunge
  | MessageNew
  | MessageRead
  | MessageTrash
  deriving DecidableEq, Fintype

/-- ASCII lowercasing of one character (Rust `u8::to_ascii_lowercase`). -/
def asciiLower (c : Char) : Char :=
  if 65 ≤ c.toNat ∧ c.toNat ≤ 90 then Char.ofNat (c.toNat + 32) else c

/-- Rust `str::eq_ignore_ascii_case`: equality after ASCII lowercasing.
Over UTF-8 this byte-wise comparison coincides with the character-wise one. -/
def eqIgnoreAsciiCase (a b : String) : Bool :=
  a.data.map asciiLower == b.data.map asciiLower

/-- The canonical rendering of an event kind (the derived `Display` on
`ImseEvent` in src/message.rs prints the variant name). -/
def ImseEvent.display : ImseEvent → String
  | .FlagsClear => "FlagsClear"
  | .FlagsSet => "FlagsSet"
  | .MailboxCreate => "MailboxCreate"
  | .MailboxDelete => "MailboxDelete"
  | .MailboxRename => "MailboxRename"
  | .MailboxSubscribe => "MailboxSubscribe"
  | .MailboxUnsubscribe => "MailboxUnsubscribe"
  | .MessageAppend => "MessageAppend"
  | .MessageExpunge => "MessageExpunge"
  | .MessageNew => "MessageNew"
  | .MessageRead => "MessageRead"
  | .MessageTrash => "MessageTrash"

/-- src/message.rs `TryFrom<&str> for ImseEvent`; `none` models the
`Err("unknown message type")` branch. -/
def ImseEvent.tryFrom (string : String) : Option ImseEvent :=
  if eqIgnoreAsciiCase string "FlagsClear" then some .FlagsClear
  else if eqIgnoreAsciiCase string "FlagsSet" then some .FlagsSet
  else if eqIgnoreAsciiCase string "MailboxCreate" then some .MailboxCreate
  else if eqIgnoreAsciiCase string "MailboxDelete" then some .MailboxDelete
  else if eqIgnoreAsciiCase string "MailboxRename" then some .MailboxRename
  else if eqIgnoreAsciiCase string "MailboxSubscribe" then some .MailboxSubscribe
  else if eqIgnoreAsciiCase string "MailboxUnsubscribe" then some .MailboxUnsubscribe
  else if eqIgnoreAsciiCase string "MessageAppend" then some .MessageAppend
  else if eqIgnoreAsciiCase string "MessageExpunge" then some .MessageExpunge
  else if eqIgnoreAsciiCase string "MessageNew" then some .MessageNew
  else if eqIgnoreAsciiCase string "MessageRead" then some .MessageRead
  else if eqIgnoreAsciiCase string "MessageTrash" then some .MessageTrash
  else none

/-- All twelve event kinds, in declaration order. -/
def allImseEvents : List ImseEvent :=
  [.FlagsClear, .FlagsSet, .MailboxCreate, .MailboxDelete, .MailboxRename,
   .MailboxSubscribe, .MailboxUnsubscribe, .MessageAppend, .MessageExpunge,
   .MessageNew, .MessageRead, .MessageTrash]

/-- A remote socket address; only its rendered text reaches the
environment overlay, so ip is kept pre-rendered and port numeric. -/
structure RemoteAddr where
  ip : String
  port : Nat

/-- src/message.rs `ImseMessage` (the wire payload plus the stamped
`remote_addr`). -/
structure ImseMessage where
  remote_addr : Option RemoteAddr
  event : ImseEvent
  user : String
  unseen : Nat
  folder : String
  from_ : Option String
  snippet : Option String

/-- src/handler.rs `Handler`: per-handler configuration.  Durations are
natural numbers of seconds; `limit_burst` holds the `NonZeroU32` value. -/
structure Handler where
  event : ImseEvent
  user : String
  delay : Option Nat
  limit_period : Option Nat
  limit_burst : Option Nat
  periodic : Option Nat
  command : List String

/-- governor `Quota::with_period`: `none` models the `None` returned for a
zero duration, on which the code's `.expect("Non-zero Duration")` panics. -/
def quotaWithPeriod (d : Nat) : Option Nat :=
  if d = 0 then none else some d

/-- The duration handed to `Quota::with_period` in `Handler::task`
(src/handler.rs lines 41-45):
`self.limit_period.filter(Duration::is_zero).unwrap_or(Duration::from_secs(30))`.
`Option::filter` keeps the value only when the predicate holds, so only a
zero `limit_period` survives this filter. -/
def Handler.ratePeriodArg (h : Handler) : Nat :=
  (h.limit_period.filter (fun d => d == 0)).getD 30

/-- The quota period of the handler's rate limiter, `none` = panic. -/
def Handler.quotaPeriod (h : Handler) : Option Nat :=
  quotaWithPeriod h.ratePeriodArg

/-- `allow_burst(self.limit_burst.unwrap_or(nonzero!(1u32)))` (line 47). -/
def Handler.rateBurst (h : Handler) : Nat :=
  h.limit_burst.getD 1

/-- Follows the spec's words (§4.4), for comparison with the code's
`Handler.ratePeriodArg`: rate_period = `spec.limit_period` if set and
non-zero, else 30s. -/
def ratePeriodSpec (limit_period : Option Nat) : Nat :=
  (limit_period.filter (fun d => d != 0)).getD 30

/-- The environment overlay built by `Handler::execute_command`
(src/handler.rs lines 84-101), in insertion order. -/
def envOverlay (h : Handler) (message : Option ImseMessage) : List (String × String) :=
  [("IMSE_USER", h.user), ("IMSE_EVENT", h.event.display)] ++
    match message with
    | none => []
    | some m =>
      (match m.remote_addr with
       | some remote =>
           [("IMSE_REMOTE_IP", remote.ip), ("IMSE_REMOTE_PORT", toString remote.port)]
       | none => []) ++
      [("IMSE_UNSEEN", toString m.unseen), ("IMSE_FOLDER", m.folder),
       ("IMSE_FROM", m.from_.getD ""), ("IMSE_SNIPPET", m.snippet.getD "")]

/-- A log line emitted after a spawn attempt (src/handler.rs lines 106-122):
`info` with `result.code().unwrap_or(-1)` on `Ok`, `warn` on `Err`. -/
inductive LogEntry
  | info (rc : Int)
  | warn
  deriving DecidableEq

/-- The environment a scheduler task runs in: slot writes as (instant,
value) pairs in time order, the instant the last sender is dropped (if
ever, after all writes), the child-process runtime, and an oracle for the
outcome of each spawn attempt (outer `none` = spawn failure, inner option
= `ExitStatus::code()`). -/
structure TaskEnv where
  writes : List (Nat × ImseMessage)
  closeAt : Option Nat
  execDur : Nat
  results : Nat → Option (Option Int)

/-- One committed spawn: commit instant, payload handed to
`execute_command`, and how many slot writes had been observed at commit. -/
structure Spawn where
  time : Nat
  payload : Option ImseMessage
  seenAtCommit : Nat

/-- The local state of `Handler::task` (src/handler.rs lines 36-49)
together with the current instant and the recorded observable behaviour
(spawns, logs, clean-exit flag). -/
structure SchedState where
  time : Nat
  latest : Option ImseMessage
  lastExecution : Nat
  nextDelay : Nat
  tat : Option Nat
  seen : Nat
  spawns : List Spawn
  logs : List LogEntry
  halted : Bool

/-- The state with its log lines dropped (used to compare scheduling
behaviour across different spawn outcomes). -/
def SchedState.stripLogs (s : SchedState) : SchedState :=
  { s with logs := [] }

/-- governor's GCRA parameters: `t` = replenish-one-per interval,
`tau = t * burst`. -/
structure Gcra where
  t : Nat
  tau : Nat

def Gcra.ofQuota (period burst : Nat) : Gcra :=
  ⟨period, period * burst⟩

inductive GcraDecision
  | allow (newTat : Nat)
  | deny (earliest : Nat)

/-- governor's GCRA test at instant `now` with state `tat?` (`none` =
fresh, starting at `now + t`): allowed when `now ≥ tat - tau`
(saturating), consuming by `tat := max tat now + t`; a denial leaves the
state unchanged and reports the earliest allowed instant `tat - tau`. -/
def gcraCheck (g : Gcra) (tat? : Option Nat) (now : Nat) : GcraDecision :=
  let tat := tat?.getD (now + g.t)
  if now < tat - g.tau then .deny (tat - g.tau) else .allow (max tat now + g.t)

/-- The slot's value at instant `t` (tokio `watch`: latest write wins;
`none` before the first write, the channel's initial payload). -/
def slotValue (writes : List (Nat × ImseMessage)) (t : Nat) : Option ImseMessage :=
  ((writes.filter (fun w => w.1 ≤ t)).getLast?).map (fun w => w.2)

/-- How many writes have happened by instant `t`: the version the reader
marks seen when `borrow_and_update` runs at `t`. -/
def observedCount (writes : List (Nat × ImseMessage)) (t : Nat) : Nat :=
  writes.countP (fun w => w.1 ≤ t)

inductive Wake
  | changed (t : Nat)
  | closed (t : Nat)
  | timeout (t : Nat)
  deriving DecidableEq

def Wake.time : Wake → Nat
  | .changed t => t
  | .closed t => t
  | .timeout t => t

/-- The wake resolved by `timeout_at(last_execution + next_delay,
rx.changed())` (src/handler.rs line 51): earliest of deadline reached,
slot changed, slot closed.  tokio polls the inner future first, so on a
tie the slot wins; `changed` completes for any unseen write even after
the sender is dropped, and `closed` only once every write is seen. -/
def nextWake (env : TaskEnv) (s : SchedState) : Wake :=
  match env.writes.get? s.seen with
  | some w =>
      if max s.time w.1 ≤ max s.time (s.lastExecution + s.nextDelay) then
        .changed (max s.time w.1)
      else .timeout (max s.time (s.lastExecution + s.nextDelay))
  | none =>
      match env.closeAt with
      | some c =>
          if max s.time c ≤ max s.time (s.lastExecution + s.nextDelay) then
            .closed (max s.time c)
          else .timeout (max s.time (s.lastExecution + s.nextDelay))
      | none => .timeout (max s.time (s.lastExecution + s.nextDelay))

inductive StepRes
  | cont (s : SchedState)
  | halt (s : SchedState)

def StepRes.state : StepRes → SchedState
  | .cont s => s
  | .halt s => s

def StepRes.isHalt : StepRes → Bool
  | .cont _ => false
  | .halt _ => true

/-- `self.execute_command(latest.take()).await` followed by
`last_execution = Instant::now(); next_delay = period;`
(src/handler.rs lines 78-80 and 84-122). -/
def Handler.executeStep (h : Handler) (env : TaskEnv) (s : SchedState) : SchedState :=
  let log := match env.results s.spawns.length with
    | some code? => LogEntry.info (code?.getD (-1))
    | none => LogEntry.warn
  { s with
    latest := none,
    spawns := s.spawns ++ [⟨s.time, s.latest, s.seen⟩],
    logs := s.logs ++ [log],
    time := s.time + env.execDur,
    lastExecution := s.time + env.execDur,
    nextDelay := h.periodic.getD 3600 }

/-- src/handler.rs lines 70-80: the rate-limit gate — consulted only when
`latest.is_some()`; on denial `next_delay =
not_until.wait_time_from(last_execution)`; otherwise commit the spawn. -/
def Handler.gate (h : Handler) (g : Gcra) (env : TaskEnv) (s : SchedState) : StepRes :=
  if s.latest.isSome then
    match gcraCheck g s.tat s.time with
    | .deny earliest => .cont { s with nextDelay := earliest - s.lastExecution }
    | .allow newTat => .cont (h.executeStep env { s with tat := some newTat })
  else .cont (h.executeStep env s)

/-- One iteration of the `while let` loop of `Handler::task`
(src/handler.rs lines 51-81). -/
def Handler.step (h : Handler) (g : Gcra) (env : TaskEnv) (s : SchedState) : StepRes :=
  match nextWake env s with
  | .closed t => .halt { s with time := t, halted := true }
  | .changed t =>
      if s.latest.isNone then
        match h.delay with
        | some d =>
            .cont { s with time := t, latest := slotValue env.writes t,
                           seen := observedCount env.writes t,
                           nextDelay := (t - s.lastExecution) + d }
        | none =>
            h.gate g env { s with time := t, latest := slotValue env.writes t,
                                  seen := observedCount env.writes t }
      else
        h.gate g env { s with time := t, latest := slotValue env.writes t,
                              seen := observedCount env.writes t }
  | .timeout t =>
      if s.latest.isNone && h.periodic.isNone then .cont { s with time := t }
      else h.gate g env { s with time := t }

/-- The loop, run for `fuel` iterations or until the slot closes. -/
def Handler.run (h : Handler) (g : Gcra) (env : TaskEnv) : Nat → SchedState → SchedState
  | 0, s => s
  | fuel + 1, s =>
      match h.step g env s with
      | .halt s1 => s1
      | .cont s1 => h.run g env fuel s1

/-- The initial task state (src/handler.rs lines 36-39): `next_delay =
period`, `latest = None`, `last_execution = Instant::now()`. -/
def Handler.initState (h : Handler) : SchedState :=
  { time := 0, latest := none, lastExecution := 0,
    nextDelay := h.periodic.getD 3600, tat := none, seen := 0,
    spawns := [], logs := [], halted := false }

/-- `Handler::task`: build the quota (`none` = the
`expect("Non-zero Duration")` panic) and run the loop. -/
def Handler.task (h : Handler) (env : TaskEnv) (fuel : Nat) : Option SchedState :=
  h.quotaPeriod.map fun p =>
    h.run (Gcra.ofQuota p h.rateBurst) env fuel h.initState

/-- The slot writes are in strictly increasing time order. -/
def timesSorted : List (Nat × ImseMessage) → Bool
  | [] => true
  | [_] => true
  | a :: b :: rest => decide (a.1 < b.1) && timesSorted (b :: rest)

/-- The observation index of the last committed spawn (`prev` before any). -/
def lastCommitSeen (prev : Nat) (spawns : List Spawn) : Nat :=
  match spawns.getLast? with
  | some sp => sp.seenAtCommit
  | none => prev

/-- Latest-wins coalescing for one spawn: its payload is `none` when no
write was observed since the previous commit, and otherwise the most
recent write observed by its commit point. -/
def spawnOk (writes : List (Nat × ImseMessage)) (prev : Nat) (sp : Spawn) : Prop :=
  prev ≤ sp.seenAtCommit ∧
  sp.payload = (if sp.seenAtCommit = prev then none
                else (writes.get? (sp.seenAtCommit - 1)).map (fun w => w.2))

/-- Latest-wins coalescing along a spawn list. -/
def spawnsOk (writes : List (Nat × ImseMessage)) : Nat → List Spawn → Prop
  | _, [] => True
  | prev, sp :: rest => spawnOk writes prev sp ∧ spawnsOk writes sp.seenAtCommit rest

/-- The coalescing invariant carried through the loop. -/
def SchedInv (writes : List (Nat × ImseMessage)) (s : SchedState) : Prop :=
  spawnsOk writes 0 s.spawns ∧
  lastCommitSeen 0 s.spawns ≤ s.seen ∧
  s.seen ≤ observedCount writes s.time ∧
  (if s.seen = lastCommitSeen 0 s.spawns then s.latest = none
   else s.latest = (writes.get? (s.seen - 1)).map (fun w => w.2))

/-- A message with a given unseen count, for the concrete scenarios. -/
def mUnseen (n : Nat) : ImseMessage :=
  { remote_addr := none, event := .MessageNew, user := "user", unseen := n,
    folder := "INBOX", from_ := none, snippet := none }

/-- A spawn-outcome oracle that always reports exit code 0. -/
def okResults : Nat → Option (Option Int) := fun _ => some (some 0)

/-- S5 handler: `delay = 5s`, nothing else. -/
def hDelay5 : Handler :=
  { event := .MessageNew, user := "user", delay := some 5, limit_period := none,
    limit_burst := none, periodic := none, command := ["notify"] }

/-- S5 environment: events at t=0 (unseen=1) and t=3 (unseen=7). -/
def envS5 : TaskEnv :=
  { writes := [(0, mUnseen 1), (3, mUnseen 7)], closeAt := none,
    execDur := 0, results := okResults }

/-- A handler with everything unset (for the idle-wake scenario). -/
def hIdle : Handler :=
  { event := .MessageNew, user := "user", delay := none, limit_period := none,
    limit_burst := none, periodic := none, command := ["notify"] }

/-- An environment with no events and no close. -/
def envIdle : TaskEnv :=
  { writes := [], closeAt := none, execDur := 0, results := okResults }

/-- S4 handler: `periodic = 5s`, `limit_period = 60s`, `limit_burst = 1`. -/
def hS4 : Handler :=
  { event := .MessageNew, user := "user", delay := none, limit_period := some 60,
    limit_burst := some 1, periodic := some 5, command := ["notify"] }

/-- C2 failing input: `limit_period = 60s` set and non-zero. -/
def hC2 : Handler :=
  { event := .MessageNew, user := "user", delay := none, limit_period := some 60,
    limit_burst := none, periodic := none, command := ["notify"] }

/-- Close-scenario handler: `delay = 100s` so the observed event stays
pending in `latest` when the slot closes. -/
def hClose : Handler :=
  { event := .MessageNew, user := "user", delay := some 100, limit_period := none,
    limit_burst := none, periodic := none, command := ["notify"] }

/-- Close-scenario environment: one event at t=0, sender dropped at t=1. -/
def envClose : TaskEnv :=
  { writes := [(0, mUnseen 1)], closeAt := some 1, execDur := 0, results := okResults }

/-- The S5 state after the first event was observed at t=0 and deferred
by `delay = 5`. -/
def csS5mid : SchedState :=
  { time := 0, latest := some (mUnseen 1), lastExecution := 0, nextDelay := 5,
    tat := none, seen := 1, spawns := [], logs := [], halted := false }

/-- The close-scenario state after the t=0 event was observed and deferred
by `delay = 100`; the event is still pending in `latest`. -/
def csClosePending : SchedState :=
  { time := 0, latest := some (mUnseen 1), lastExecution := 0, nextDelay := 100,
    tat := none, seen := 1, spawns := [], logs := [], halted := false }

/-- The S5 environment with every spawn attempt failing. -/
def envFail : TaskEnv :=
  { envS5 with results := fun _ => none }

theorem eqIc_iff (a b : String) :
    eqIgnoreAsciiCase a b = true ↔ a.data.map asciiLower = b.data.map asciiLower := by
  simp [eqIgnoreAsciiCase]

theorem display_lower_inj :
    ∀ k₁ k₂ : ImseEvent,
      eqIgnoreAsciiCase k₁.display k₂.display = true → k₁ = k₂ := by
  decide

theorem eqIc_two {s a b : String} (h1 : eqIgnoreAsciiCase s a = true)
    (h2 : eqIgnoreAsciiCase s b = true) : eqIgnoreAsciiCase a b = true := by
  rw [eqIc_iff] at h1 h2 ⊢
  rw [← h1, ← h2]

theorem eqIc_false_right {s a b : String} (h : eqIgnoreAsciiCase s a = true)
    (hab : eqIgnoreAsciiCase a b = false) : eqIgnoreAsciiCase s b = false := by
  cases hsb : eqIgnoreAsciiCase s b with
  | false => rfl
  | true => rw [eqIc_two h hsb] at hab; cases hab

theorem display_eq_of_two {s : String} {k₁ k₂ : ImseEvent}
    (h1 : eqIgnoreAsciiCase s k₁.display = true)
    (h2 : eqIgnoreAsciiCase s k₂.display = true) : k₁ = k₂ :=
  display_lower_inj k₁ k₂ (eqIc_two h1 h2)

theorem tryFrom_congr {s t : String}
    (h : s.data.map asciiLower = t.data.map asciiLower) :
    ImseEvent.tryFrom s = ImseEvent.tryFrom t := by
  simp only [ImseEvent.tryFrom, eqIgnoreAsciiCase, h]

set_option maxHeartbeats 1000000 in
theorem tryFrom_display : ∀ k : ImseEvent, ImseEvent.tryFrom k.display = some k := by
  decide

theorem tryFrom_some_of (s : String) (k : ImseEvent)
    (h : eqIgnoreAsciiCase s k.display = true) : ImseEvent.tryFrom s = some k :=
  (tryFrom_congr ((eqIc_iff _ _).mp h)).trans (tryFrom_display k)

theorem tryFrom_some_fwd (s : String) (k : ImseEvent)
    (h : ImseEvent.tryFrom s = some k) : eqIgnoreAsciiCase s k.display = true := by
  unfold ImseEvent.tryFrom at h
  by_cases h1 : eqIgnoreAsciiCase s "FlagsClear" = true
  · rw [if_pos h1] at h; injection h with hh; subst hh; exact h1
  rw [if_neg h1] at h
  by_cases h2 : eqIgnoreAsciiCase s "FlagsSet" = true
  · rw [if_pos h2] at h; injection h with hh; subst hh; exact h2
  rw [if_neg h2] at h
  by_cases h3 : eqIgnoreAsciiCase s "MailboxCreate" = true
  · rw [if_pos h3] at h; injection h with hh; subst hh; exact h3
  rw [if_neg h3] at h
  by_cases h4 : eqIgnoreAsciiCase s "MailboxDelete" = true
  · rw [if_pos h4] at h; injection h with hh; subst hh; exact h4
  rw [if_neg h4] at h
  by_cases h5 : eqIgnoreAsciiCase s "MailboxRename" = true
  · rw [if_pos h5] at h; injection h with hh; subst hh; exact h5
  rw [if_neg h5] at h
  by_cases h6 : eqIgnoreAsciiCase s "MailboxSubscribe" = true
  · rw [if_pos h6] at h; injection h with hh; subst hh; exact h6
  rw [if_neg h6] at h
  by_cases h7 : eqIgnoreAsciiCase s "MailboxUnsubscribe" = true
  · rw [if_pos h7] at h; injection h with hh; subst hh; exact h7
  rw [if_neg h7] at h
  by_cases h8 : eqIgnoreAsciiCase s "MessageAppend" = true
  · rw [if_pos h8] at h; injection h with hh; subst hh; exact h8
  rw [if_neg h8] at h
  by_cases h9 : eqIgnoreAsciiCase s "MessageExpunge" = true
  · rw [if_pos h9] at h; injection h with hh; subst hh; exact h9
  rw [if_neg h9] at h
  by_cases h10 : eqIgnoreAsciiCase s "MessageNew" = true
  · rw [if_pos h10] at h; injection h with hh; subst hh; exact h10
  rw [if_neg h10] at h
  by_cases h11 : eqIgnoreAsciiCase s "MessageRead" = true
  · rw [if_pos h11] at h; injection h with hh; subst hh; exact h11
  rw [if_neg h11] at h
  by_cases h12 : eqIgnoreAsciiCase s "MessageTrash" = true
  · rw [if_pos h12] at h; injection h with hh; subst hh; exact h12
  rw [if_neg h12] at h
  cases h

theorem tryFrom_some_iff (s : String) (k : ImseEvent) :
    ImseEvent.tryFrom s = some k ↔ eqIgnoreAsciiCase s k.display = true :=
  ⟨tryFrom_some_fwd s k, tryFrom_some_of s k⟩

theorem tryFrom_none_iff (s : String) :
    ImseEvent.tryFrom s = none ↔ ∀ k : ImseEvent, eqIgnoreAsciiCase s k.display = false := by
  constructor
  · intro h k
    cases hk : eqIgnoreAsciiCase s k.display with
    | false => rfl
    | true => rw [tryFrom_some_of s k hk] at h; cases h
  · intro h
    cases htf : ImseEvent.tryFrom s with
    | none => rfl
    | some k =>
        have := (tryFrom_some_iff s k).mp htf
        rw [h k] at this
        cases this

/-- C9: the event kind is a closed enumeration of exactly twelve names;
parsing succeeds if and only if the input equals one of the twelve names
under ASCII case-insensitive comparison, yielding that kind, and fails
otherwise; rendering produces exactly the canonical casing of the spec. -/
theorem c9_event_kind_parse_render :
    (allImseEvents.length = 12 ∧ allImseEvents.Nodup ∧
      ∀ k : ImseEvent, k ∈ allImseEvents) ∧
    allImseEvents.map ImseEvent.display =
      ["FlagsClear", "FlagsSet", "MailboxCreate", "MailboxDelete", "MailboxRename",
       "MailboxSubscribe", "MailboxUnsubscribe", "MessageAppend", "MessageExpunge",
       "MessageNew", "MessageRead", "MessageTrash"] ∧
    (∀ (s : String) (k : ImseEvent),
      ImseEvent.tryFrom s = some k ↔ eqIgnoreAsciiCase s k.display = true) ∧
    (∀ s : String,
      ImseEvent.tryFrom s = none ↔
        ∀ k : ImseEvent, eqIgnoreAsciiCase s k.display = false) :=
  ⟨⟨by decide, by decide, by decide⟩, rfl, tryFrom_some_iff, tryFrom_none_iff⟩

theorem step_closed (h : Handler) (g : Gcra) (env : TaskEnv) (s : SchedState)
    (t : Nat) (hw : nextWake env s = .closed t) :
    h.step g env s = .halt { s with time := t, halted := true } := by
  unfold Handler.step
  rw [hw]

theorem run_closed (h : Handler) (g : Gcra) (env : TaskEnv) (s : SchedState)
    (t fuel : Nat) (hw : nextWake env s = .closed t) :
    h.run g env (fuel + 1) s = { s with time := t, halted := true } := by
  show (match h.step g env s with
        | .halt s1 => s1
        | .cont s1 => h.run g env fuel s1) = _
  rw [step_closed h g env s t hw]

theorem gate_latest_none (h : Handler) (g : Gcra) (env : TaskEnv) (s : SchedState)
    (hl : s.latest = none) :
    (h.gate g env s).isHalt = false ∧
    (h.gate g env s).state.tat = s.tat ∧
    (h.gate g env s).state.spawns = s.spawns ++ [⟨s.time, none, s.seen⟩] := by
  unfold Handler.gate
  rw [hl]
  exact ⟨rfl, rfl, by simp [Handler.executeStep, StepRes.state, hl]⟩

/-- C10: the scheduler task panics during rate-limiter construction if and
only if the handler's `limit_period` is set to a zero duration; for every
handler whose `limit_period` is unset or non-zero that branch is
unreachable and task startup succeeds. -/
theorem c10_quota_panic_iff (h : Handler) (env : TaskEnv) (fuel : Nat) :
    (h.quotaPeriod = none ↔ h.limit_period = some 0) ∧
    ((h.task env fuel).isSome ↔ h.limit_period ≠ some 0) := by
  have hiff : h.quotaPeriod = none ↔ h.limit_period = some 0 := by
    unfold Handler.quotaPeriod Handler.ratePeriodArg quotaWithPeriod
    cases hl : h.limit_period with
    | none => simp [Option.filter]
    | some a =>
        by_cases ha : a = 0
        · subst ha; simp [Option.filter]
        · simp [Option.filter, ha]
  refine ⟨hiff, ?_⟩
  unfold Handler.task
  cases hq : h.quotaPeriod with
  | none => simp [hiff.mp hq]
  | some p =>
      simp only [Option.map_some', Option.isSome_some, true_iff]
      intro h0
      rw [hiff.mpr h0] at hq
      cases hq

/-- C2 (code bug): for `limit_period = 60s` (set and non-zero) the code's
token bucket period is 30s, not 60s as the claim states — the
`filter(Duration::is_zero)` on src/handler.rs line 43 keeps only zero
durations, so every non-zero `limit_period` is discarded in favour of the
30s default; `ratePeriodSpec` follows the spec's words and yields 60.
The burst half of the claim does hold (`limit_burst` unset gives 1). -/
theorem c2_rate_parameter_bug :
    hC2.limit_period = some 60 ∧
    hC2.quotaPeriod = some 30 ∧
    ratePeriodSpec hC2.limit_period = 60 ∧
    (30 : Nat) ≠ 60 ∧
    hC2.rateBurst = 1 ∧
    (∀ d : Nat,
      ({ hC2 with limit_period := some (d + 1) } : Handler).quotaPeriod = some 30) := by
  refine ⟨rfl, rfl, rfl, by decide, rfl, fun d => ?_⟩
  unfold Handler.quotaPeriod Handler.ratePeriodArg quotaWithPeriod
  simp [Option.filter]

/-- C8: `IMSE_USER` and `IMSE_EVENT` are always set; the event-field
variables are set exactly for event-driven spawns, with `IMSE_FROM` and
`IMSE_SNIPPET` defaulting to the empty string and the remote pair present
if and only if a remote address is known; a periodic spawn's overlay is
exactly the two identity variables. -/
theorem c8_env_overlay_contents (h : Handler) (message : Option ImseMessage) :
    (envOverlay h message).lookup "IMSE_USER" = some h.user ∧
    (envOverlay h message).lookup "IMSE_EVENT" = some h.event.display ∧
    envOverlay h none = [("IMSE_USER", h.user), ("IMSE_EVENT", h.event.display)] ∧
    (∀ m : ImseMessage,
      (envOverlay h (some m)).lookup "IMSE_UNSEEN" = some (toString m.unseen) ∧
      (envOverlay h (some m)).lookup "IMSE_FOLDER" = some m.folder ∧
      (envOverlay h (some m)).lookup "IMSE_FROM" = some (m.from_.getD "") ∧
      (envOverlay h (some m)).lookup "IMSE_SNIPPET" = some (m.snippet.getD "") ∧
      (envOverlay h (some m)).lookup "IMSE_REMOTE_IP" = m.remote_addr.map RemoteAddr.ip ∧
      (envOverlay h (some m)).lookup "IMSE_REMOTE_PORT"
        = m.remote_addr.map (fun r => toString r.port)) := by
  refine ⟨rfl, rfl, rfl, fun m => ?_⟩
  obtain ⟨ra, ev, us, un, fo, fr, sn⟩ := m
  cases ra <;> exact ⟨rfl, rfl, rfl, rfl, rfl, rfl⟩

/-- C3 counterexample: with `periodic` unset and no events, the idle
safety wake at t=3600 causes no spawn but leaves the deadline at 3600 —
it is not set to now + periodic_effective = 7200 as the claim states. -/
theorem c3_idle_wake_counterexample :
    (hIdle.task envIdle 1).map
        (fun st => (st.spawns.length, st.time, st.lastExecution + st.nextDelay))
      = some (0, 3600, 3600) ∧
    (3600 : Nat) ≠ 3600 + 3600 :=
  ⟨rfl, by decide⟩

/-- C3 (amended): on a deadline wake with `latest = none` and
`spec.periodic` unset, the scheduler continues the loop without spawning
and with `last_execution` and `next_delay` unchanged — the deadline is
left where it was rather than being reset to now + periodic_effective —
so this wake never causes a spawn. -/
theorem c3_idle_wake_amended (h : Handler) (g : Gcra) (env : TaskEnv)
    (s : SchedState) (t : Nat)
    (hw : nextWake env s = .timeout t) (hl : s.latest = none)
    (hp : h.periodic = none) :
    h.step g env s = .cont { s with time := t } := by
  unfold Handler.step
  rw [hw]
  simp [hl, hp]

theorem c3_idle_wake_amended_witness :
    hIdle.step ⟨30, 30⟩ envIdle hIdle.initState
      = .cont { hIdle.initState with time := 3600 } :=
  c3_idle_wake_amended hIdle ⟨30, 30⟩ envIdle hIdle.initState 3600 rfl rfl rfl

/-- C7: when the slot reports closed the task halts at the top of the next
iteration with no new spawn, even if `latest` still holds a pending
event; concretely, with an event observed at t=0 deferred by
`delay = 100s` and the sender dropped at t=1, the task exits with zero
spawns and the event still pending. -/
theorem c7_close_terminates :
    (∀ (h : Handler) (g : Gcra) (env : TaskEnv) (s : SchedState) (t : Nat),
      nextWake env s = .closed t →
      h.step g env s = .halt { s with time := t, halted := true }) ∧
    (∀ (h : Handler) (g : Gcra) (env : TaskEnv) (s : SchedState) (t fuel : Nat),
      nextWake env s = .closed t →
      h.run g env (fuel + 1) s = { s with time := t, halted := true }) ∧
    (hClose.task envClose 5).map
        (fun st => (st.spawns.length, st.latest.map ImseMessage.unseen, st.halted))
      = some (0, some 1, true) :=
  ⟨step_closed, fun h g env s t fuel hw => run_closed h g env s t fuel hw, rfl⟩

theorem c7_close_terminates_witness :
    hClose.step ⟨30, 30⟩ envClose csClosePending
      = .halt { csClosePending with time := 1, halted := true } ∧
    hClose.run ⟨30, 30⟩ envClose 1 csClosePending
      = { csClosePending with time := 1, halted := true } :=
  ⟨(c7_close_terminates).1 hClose ⟨30, 30⟩ envClose csClosePending 1 rfl,
   (c7_close_terminates).2.1 hClose ⟨30, 30⟩ envClose csClosePending 1 0 rfl⟩

/-- C4: a spawn committed with `latest = none` never consults or consumes
from the token bucket (the gate reads the bucket only when
`latest.is_some()`), and with `periodic = 5s`, `limit_period = 60s`,
`limit_burst = 1` and no events the spawns occur at t=5, 10, 15 with the
bucket never touched. -/
theorem c4_periodic_bypass :
    (∀ (h : Handler) (g : Gcra) (env : TaskEnv) (s : SchedState),
      s.latest = none →
      (h.gate g env s).isHalt = false ∧
      (h.gate g env s).state.tat = s.tat ∧
      (h.gate g env s).state.spawns = s.spawns ++ [⟨s.time, none, s.seen⟩]) ∧
    (hS4.task envIdle 3).map
        (fun st => (st.spawns.map (fun sp => (sp.time, sp.payload)), st.tat))
      = some ([(5, none), (10, none), (15, none)], none) :=
  ⟨gate_latest_none, rfl⟩

theorem c4_periodic_bypass_witness :
    (hS4.gate ⟨30, 30⟩ envIdle hS4.initState).isHalt = false ∧
    (hS4.gate ⟨30, 30⟩ envIdle hS4.initState).state.tat = none ∧
    (hS4.gate ⟨30, 30⟩ envIdle hS4.initState).state.spawns = [] ++ [⟨0, none, 0⟩] :=
  (c4_periodic_bypass).1 hS4 ⟨30, 30⟩ envIdle hS4.initState rfl

/-- C1 counterexample: with `delay = 5s` and events observed at t=0 and
t=3, the code commits exactly one spawn, at t=3 with the t=3 payload —
but 3 is neither ≥ 0 + 5 nor ≥ 3 + 5, so no observed event satisfies
T ≥ T0 + D, and the spawn is at t=3, not t≈5 as the claim states. -/
theorem c1_delay_counterexample :
    (hDelay5.task envS5 2).map
        (fun st => st.spawns.map (fun sp => (sp.time, sp.payload.map ImseMessage.unseen)))
      = some [(3, some 7)] ∧
    hDelay5.delay = some 5 ∧
    ¬ (3 : Nat) ≥ 0 + 5 ∧ ¬ (3 : Nat) ≥ 3 + 5 ∧ (3 : Nat) ≠ 5 :=
  ⟨rfl, rfl, by decide, by decide, by decide⟩

theorem step_initial_delay (h : Handler) (g : Gcra) (env : TaskEnv)
    (s : SchedState) (t d : Nat)
    (hw : nextWake env s = .changed t) (hl : s.latest = none)
    (hd : h.delay = some d) (hle : s.lastExecution ≤ t) :
    (h.step g env s).isHalt = false ∧
    (h.step g env s).state.spawns = s.spawns ∧
    (h.step g env s).state.lastExecution + (h.step g env s).state.nextDelay = t + d ∧
    (h.step g env s).state.latest = slotValue env.writes t := by
  have hstep : h.step g env s
      = .cont { s with time := t, latest := slotValue env.writes t,
                       seen := observedCount env.writes t,
                       nextDelay := (t - s.lastExecution) + d } := by
    unfold Handler.step
    rw [hw]
    simp [hl, hd]
  rw [hstep]
  refine ⟨rfl, rfl, ?_, rfl⟩
  show s.lastExecution + ((t - s.lastExecution) + d) = t + d
  omega

theorem step_subsequent_event (h : Handler) (g : Gcra) (env : TaskEnv)
    (s : SchedState) (t : Nat) (m v : ImseMessage) (newTat : Nat)
    (hw : nextWake env s = .changed t) (hl : s.latest = some m)
    (hsv : slotValue env.writes t = some v)
    (hgc : gcraCheck g s.tat t = .allow newTat) :
    (h.step g env s).isHalt = false ∧
    (h.step g env s).state.spawns
      = s.spawns ++ [⟨t, some v, observedCount env.writes t⟩] ∧
    (h.step g env s).state.latest = none ∧
    (h.step g env s).state.tat = some newTat := by
  have hstep : h.step g env s
      = .cont (h.executeStep env
          { s with time := t, latest := some v,
                   seen := observedCount env.writes t, tat := some newTat }) := by
    unfold Handler.step
    rw [hw]
    simp only [hl, hsv]
    unfold Handler.gate
    simp [hgc]
  rw [hstep]
  exact ⟨rfl, rfl, rfl, rfl⟩

/-- C1 (amended): with `spec.delay = D` set, only the wake for the first
event of a burst is deferred — it records the payload, causes no spawn,
and sets the deadline to (first event time) + D; a subsequent event
arriving during the delay wait is not deferred but triggers an immediate
event-driven spawn (subject to the rate limiter) carrying the latest
payload.  Concretely, with `delay = 5s` and events at t=0 and t=3 exactly
one spawn occurs, at t=3, with the t=3 event's payload. -/
theorem c1_delay_first_event_only :
    (∀ (h : Handler) (g : Gcra) (env : TaskEnv) (s : SchedState) (t d : Nat),
      nextWake env s = .changed t → s.latest = none → h.delay = some d →
      s.lastExecution ≤ t →
      (h.step g env s).isHalt = false ∧
      (h.step g env s).state.spawns = s.spawns ∧
      (h.step g env s).state.lastExecution + (h.step g env s).state.nextDelay = t + d ∧
      (h.step g env s).state.latest = slotValue env.writes t) ∧
    (∀ (h : Handler) (g : Gcra) (env : TaskEnv) (s : SchedState) (t : Nat)
        (m v : ImseMessage) (newTat : Nat),
      nextWake env s = .changed t → s.latest = some m →
      slotValue env.writes t = some v → gcraCheck g s.tat t = .allow newTat →
      (h.step g env s).isHalt = false ∧
      (h.step g env s).state.spawns
        = s.spawns ++ [⟨t, some v, observedCount env.writes t⟩] ∧
      (h.step g env s).state.latest = none ∧
      (h.step g env s).state.tat = some newTat) ∧
    (hDelay5.task envS5 2).map
        (fun st => st.spawns.map (fun sp => (sp.time, sp.payload.map ImseMessage.unseen)))
      = some [(3, some 7)] :=
  ⟨step_initial_delay, step_subsequent_event, rfl⟩

theorem c1_delay_first_event_only_witness :
    ((hDelay5.step ⟨30, 30⟩ envS5 hDelay5.initState).isHalt = false ∧
      (hDelay5.step ⟨30, 30⟩ envS5 hDelay5.initState).state.spawns = [] ∧
      (hDelay5.step ⟨30, 30⟩ envS5 hDelay5.initState).state.lastExecution
          + (hDelay5.step ⟨30, 30⟩ envS5 hDelay5.initState).state.nextDelay = 0 + 5 ∧
      (hDelay5.step ⟨30, 30⟩ envS5 hDelay5.initState).state.latest
        = slotValue envS5.writes 0) ∧
    ((hDelay5.step ⟨30, 30⟩ envS5 csS5mid).isHalt = false ∧
      (hDelay5.step ⟨30, 30⟩ envS5 csS5mid).state.spawns
        = [] ++ [⟨3, some (mUnseen 7), observedCount envS5.writes 3⟩] ∧
      (hDelay5.step ⟨30, 30⟩ envS5 csS5mid).state.latest = none ∧
      (hDelay5.step ⟨30, 30⟩ envS5 csS5mid).state.tat = some 63) :=
  ⟨(c1_delay_first_event_only).1 hDelay5 ⟨30, 30⟩ envS5 hDelay5.initState 0 5
      rfl rfl rfl (by decide),
   (c1_delay_first_event_only).2.1 hDelay5 ⟨30, 30⟩ envS5 csS5mid 3
      (mUnseen 1) (mUnseen 7) 63 rfl rfl rfl rfl⟩

theorem gate_results_irrel (h : Handler) (g : Gcra)
    (w : List (Nat × ImseMessage)) (c : Option Nat) (e : Nat)
    (r1 r2 : Nat → Option (Option Int))
    (t : Nat) (l : Option ImseMessage) (le nd : Nat) (ta : Option Nat) (se : Nat)
    (sp : List Spawn) (lg1 lg2 : List LogEntry) (ha : Bool) :
    (h.gate g ⟨w, c, e, r1⟩ ⟨t, l, le, nd, ta, se, sp, lg1, ha⟩).isHalt
      = (h.gate g ⟨w, c, e, r2⟩ ⟨t, l, le, nd, ta, se, sp, lg2, ha⟩).isHalt ∧
    (h.gate g ⟨w, c, e, r1⟩ ⟨t, l, le, nd, ta, se, sp, lg1, ha⟩).state.stripLogs
      = (h.gate g ⟨w, c, e, r2⟩ ⟨t, l, le, nd, ta, se, sp, lg2, ha⟩).state.stripLogs := by
  unfold Handler.gate
  cases l with
  | none => exact ⟨rfl, rfl⟩
  | some m =>
      cases hgc : gcraCheck g ta t with
      | deny earliest => exact ⟨rfl, rfl⟩
      | allow newTat => exact ⟨rfl, rfl⟩

theorem step_results_irrel (h : Handler) (g : Gcra) (env1 env2 : TaskEnv)
    (s1 s2 : SchedState)
    (hw : env1.writes = env2.writes) (hc : env1.closeAt = env2.closeAt)
    (he : env1.execDur = env2.execDur) (hs : s1.stripLogs = s2.stripLogs) :
    (h.step g env1 s1).isHalt = (h.step g env2 s2).isHalt ∧
    (h.step g env1 s1).state.stripLogs = (h.step g env2 s2).state.stripLogs := by
  obtain ⟨w1, c1, e1, r1⟩ := env1
  obtain ⟨w2, c2, e2, r2⟩ := env2
  dsimp only at hw hc he
  subst hw hc he
  obtain ⟨t1, l1, le1, nd1, ta1, se1, sp1, lg1, ha1⟩ := s1
  obtain ⟨t2, l2, le2, nd2, ta2, se2, sp2, lg2, ha2⟩ := s2
  simp only [SchedState.stripLogs, SchedState.mk.injEq, and_true, true_and] at hs
  obtain ⟨rfl, rfl, rfl, rfl, rfl, rfl, rfl, rfl⟩ := hs
  have hnw : nextWake ⟨w1, c1, e1, r1⟩ ⟨t1, l1, le1, nd1, ta1, se1, sp1, lg1, ha1⟩
      = nextWake ⟨w1, c1, e1, r2⟩ ⟨t1, l1, le1, nd1, ta1, se1, sp1, lg2, ha1⟩ := rfl
  unfold Handler.step
  rw [hnw]
  cases hwk : nextWake ⟨w1, c1, e1, r2⟩ ⟨t1, l1, le1, nd1, ta1, se1, sp1, lg2, ha1⟩ with
  | closed t => exact ⟨rfl, rfl⟩
  | changed t =>
      cases l1 with
      | none =>
          cases hd : h.delay with
          | some d => exact ⟨rfl, rfl⟩
          | none =>
              dsimp only
              exact gate_results_irrel h g w1 c1 e1 r1 r2 t
                (slotValue w1 t) le1 nd1 ta1 (observedCount w1 t) sp1 lg1 lg2 ha1
      | some m =>
          dsimp only
          exact gate_results_irrel h g w1 c1 e1 r1 r2 t
            (slotValue w1 t) le1 nd1 ta1 (observedCount w1 t) sp1 lg1 lg2 ha1
  | timeout t =>
      cases l1 with
      | none =>
          cases hp : h.periodic with
          | none => exact ⟨rfl, rfl⟩
          | some p =>
              dsimp only
              exact gate_results_irrel h g w1 c1 e1 r1 r2 t
                none le1 nd1 ta1 se1 sp1 lg1 lg2 ha1
      | some m =>
          dsimp only
          exact gate_results_irrel h g w1 c1 e1 r1 r2 t
            (some m) le1 nd1 ta1 se1 sp1 lg1 lg2 ha1

theorem run_results_irrel (h : Handler) (g : Gcra)
    (w : List (Nat × ImseMessage)) (c : Option Nat) (e : Nat)
    (r1 r2 : Nat → Option (Option Int)) :
    ∀ (fuel : Nat) (s1 s2 : SchedState), s1.stripLogs = s2.stripLogs →
      (h.run g ⟨w, c, e, r1⟩ fuel s1).stripLogs
        = (h.run g ⟨w, c, e, r2⟩ fuel s2).stripLogs := by
  intro fuel
  induction fuel with
  | zero => intro s1 s2 hs; exact hs
  | succ n ih =>
      intro s1 s2 hs
      have hstep := step_results_irrel h g ⟨w, c, e, r1⟩ ⟨w, c, e, r2⟩ s1 s2 rfl rfl rfl hs
      show (match h.step g ⟨w, c, e, r1⟩ s1 with
            | .halt x => x
            | .cont x => h.run g ⟨w, c, e, r1⟩ n x).stripLogs
          = (match h.step g ⟨w, c, e, r2⟩ s2 with
            | .halt x => x
            | .cont x => h.run g ⟨w, c, e, r2⟩ n x).stripLogs
      cases hs1 : h.step g ⟨w, c, e, r1⟩ s1 with
      | halt x =>
          cases hs2 : h.step g ⟨w, c, e, r2⟩ s2 with
          | halt y =>
              have := hstep.2
              rw [hs1, hs2] at this
              exact this
          | cont y =>
              have := hstep.1
              rw [hs1, hs2] at this
              cases this
      | cont x =>
          cases hs2 : h.step g ⟨w, c, e, r2⟩ s2 with
          | halt y =>
              have := hstep.1
              rw [hs1, hs2] at this
              cases this
          | cont y =>
              have := hstep.2
              rw [hs1, hs2] at this
              exact ih x y this

/-- C6: spawn failure is not fatal, not retried and not refunded: the
scheduling behaviour (everything except the log lines) is the same
function of the inputs for every spawn-outcome oracle; when the gate
admits an event-driven spawn the token is consumed (`tat := newTat`) and
`last_execution` / `next_delay` are updated exactly as on success, for
every oracle including an always-failing one; and a failing spawn is
logged as a warning while still committing the spawn. -/
theorem c6_spawn_failure_not_fatal :
    (∀ (h : Handler) (g : Gcra) (w : List (Nat × ImseMessage)) (c : Option Nat)
        (e : Nat) (r1 r2 : Nat → Option (Option Int)) (fuel : Nat),
      (h.run g ⟨w, c, e, r1⟩ fuel h.initState).stripLogs
        = (h.run g ⟨w, c, e, r2⟩ fuel h.initState).stripLogs) ∧
    (∀ (h : Handler) (g : Gcra) (env : TaskEnv) (s : SchedState) (newTat : Nat),
      s.latest.isSome = true → gcraCheck g s.tat s.time = .allow newTat →
      (h.gate g env s).isHalt = false ∧
      (h.gate g env s).state.tat = some newTat ∧
      (h.gate g env s).state.lastExecution = s.time + env.execDur ∧
      (h.gate g env s).state.nextDelay = h.periodic.getD 3600) ∧
    (∀ (h : Handler) (env : TaskEnv) (s : SchedState),
      env.results s.spawns.length = none →
      (h.executeStep env s).logs = s.logs ++ [LogEntry.warn] ∧
      (h.executeStep env s).spawns = s.spawns ++ [⟨s.time, s.latest, s.seen⟩]) := by
  refine ⟨?_, ?_, ?_⟩
  · intro h g w c e r1 r2 fuel
    exact run_results_irrel h g w c e r1 r2 fuel h.initState h.initState rfl
  · intro h g env s newTat hiso hgc
    obtain ⟨m, hm⟩ := Option.isSome_iff_exists.mp hiso
    unfold Handler.gate
    rw [hm]
    simp only [Option.isSome_some, if_true, hgc]
    exact ⟨rfl, rfl, rfl, rfl⟩
  · intro h env s hres
    unfold Handler.executeStep
    rw [hres]
    exact ⟨rfl, rfl⟩

theorem c6_spawn_failure_not_fatal_witness :
    ((hDelay5.gate ⟨30, 30⟩ envFail csS5mid).isHalt = false ∧
      (hDelay5.gate ⟨30, 30⟩ envFail csS5mid).state.tat = some 60 ∧
      (hDelay5.gate ⟨30, 30⟩ envFail csS5mid).state.lastExecution = 0 + 0 ∧
      (hDelay5.gate ⟨30, 30⟩ envFail csS5mid).state.nextDelay
        = hDelay5.periodic.getD 3600) ∧
    ((hDelay5.executeStep envFail csS5mid).logs = [] ++ [LogEntry.warn] ∧
      (hDelay5.executeStep envFail csS5mid).spawns
        = [] ++ [⟨0, some (mUnseen 1), 1⟩]) :=
  ⟨(c6_spawn_failure_not_fatal).2.1 hDelay5 ⟨30, 30⟩ envFail csS5mid 60 rfl rfl,
   (c6_spawn_failure_not_fatal).2.2 hDelay5 envFail csS5mid rfl⟩

theorem timesSorted_tail {a : Nat × ImseMessage} {l : List (Nat × ImseMessage)}
    (h : timesSorted (a :: l) = true) : timesSorted l = true := by
  cases l with
  | nil => rfl
  | cons b l2 =>
      have hh : (decide (a.1 < b.1) && timesSorted (b :: l2)) = true := h
      rw [Bool.and_eq_true] at hh
      exact hh.2

theorem timesSorted_head_lt {l : List (Nat × ImseMessage)} :
    ∀ {a : Nat × ImseMessage}, timesSorted (a :: l) = true →
      ∀ x ∈ l, a.1 < x.1 := by
  induction l with
  | nil => intro a _ x hx; cases hx
  | cons b l2 ih =>
      intro a h x hx
      have hh : (decide (a.1 < b.1) && timesSorted (b :: l2)) = true := h
      rw [Bool.and_eq_true] at hh
      have hab : a.1 < b.1 := of_decide_eq_true hh.1
      cases hx with
      | head => exact hab
      | tail _ hx2 => exact lt_trans hab (ih hh.2 x hx2)

theorem observedCount_mono (w : List (Nat × ImseMessage)) {t1 t2 : Nat} (h : t1 ≤ t2) :
    observedCount w t1 ≤ observedCount w t2 := by
  induction w with
  | nil => exact le_refl _
  | cons a l ih =>
      simp only [observedCount, List.countP_cons] at *
      by_cases ha : a.1 ≤ t1
      · have hb : a.1 ≤ t2 := le_trans ha h
        simp only [ha, hb, decide_true_eq_true]
        simp only [decide_eq_true_eq, ha, hb, if_true]
        omega
      · by_cases hb : a.1 ≤ t2 <;> simp only [decide_eq_true_eq, ha, hb, if_true, if_false] <;> omega

theorem observedCount_ge (w : List (Nat × ImseMessage)) (t : Nat) :
    ∀ (n : Nat) (x : Nat × ImseMessage), timesSorted w = true →
      w.get? n = some x → x.1 ≤ t → n + 1 ≤ observedCount w t := by
  induction w with
  | nil => intro n x _ hg _; cases hg
  | cons a l ih =>
      intro n x hs hg hx
      cases n with
      | zero =>
          have hax : a = x := by
            have : some a = some x := hg
            injection this
          have hat : a.1 ≤ t := hax ▸ hx
          simp only [observedCount, List.countP_cons, decide_eq_true_eq, hat, if_true]
          omega
      | succ m =>
          have hg2 : l.get? m = some x := hg
          have hs2 : timesSorted l = true := timesSorted_tail hs
          have h1 : m + 1 ≤ observedCount l t := ih m x hs2 hg2 hx
          have hmem : x ∈ l := List.get?_mem hg2
          have hax : a.1 < x.1 := timesSorted_head_lt hs x hmem
          have hat : a.1 ≤ t := le_trans (le_of_lt hax) hx
          simp only [observedCount, List.countP_cons, decide_eq_true_eq, hat, if_true]
          simp only [observedCount] at h1
          omega

theorem slotValue_get (w : List (Nat × ImseMessage)) (t : Nat) :
    timesSorted w = true → 0 < observedCount w t →
      (w.filter (fun p => p.1 ≤ t)).getLast? = w.get? (observedCount w t - 1) := by
  induction w with
  | nil => intro _ hpos; simp [observedCount] at hpos
  | cons a l ih =>
      intro hs hpos
      by_cases hat : a.1 ≤ t
      · have hcount : observedCount (a :: l) t = observedCount l t + 1 := by
          simp [observedCount, List.countP_cons, hat]
        by_cases hl0 : observedCount l t = 0
        · have hfl : l.filter (fun p => p.1 ≤ t) = [] := by
            rw [← List.length_eq_zero, ← List.countP_eq_length_filter]
            exact hl0
          rw [List.filter_cons]
          simp only [decide_eq_true_eq, hat, if_true, hfl, hcount, hl0]
          rfl
        · have hpos2 : 0 < observedCount l t := Nat.pos_of_ne_zero hl0
          have ihh := ih (timesSorted_tail hs) hpos2
          have hfl : l.filter (fun p => p.1 ≤ t) ≠ [] := by
            intro hnil
            rw [← List.length_eq_zero, ← List.countP_eq_length_filter] at hnil
            exact hl0 hnil
          obtain ⟨b, l2, hbl⟩ := List.exists_cons_of_ne_nil hfl
          rw [List.filter_cons]
          simp only [decide_eq_true_eq, hat, if_true, hcount]
          rw [hbl, List.getLast?_cons_cons, ← hbl, ihh]
          have : observedCount l t + 1 - 1 = (observedCount l t - 1) + 1 := by omega
          rw [this]
          rfl
      · exfalso
        have hl0 : observedCount l t = 0 := by
          rw [observedCount, List.countP_eq_zero]
          intro x hx
          simp only [decide_eq_true_eq]
          have := timesSorted_head_lt hs x hx
          omega
        have : observedCount (a :: l) t = 0 := by
          simp [observedCount, List.countP_cons, hat, hl0]
          simp [observedCount] at hl0
          exact hl0
        omega

theorem lastCommitSeen_cons (p : Nat) (x : Spawn) (l : List Spawn) :
    lastCommitSeen p (x :: l) = lastCommitSeen x.seenAtCommit l := by
  cases l with
  | nil => rfl
  | cons y l2 =>
      show (match (x :: y :: l2).getLast? with
            | some sp => sp.seenAtCommit
            | none => p)
          = (match (y :: l2).getLast? with
            | some sp => sp.seenAtCommit
            | none => x.seenAtCommit)
      rw [List.getLast?_cons_cons]
      cases hg : (y :: l2).getLast? with
      | some z => rfl
      | none =>
          rw [List.getLast?_eq_none_iff] at hg
          cases hg

theorem lastCommitSeen_concat (p : Nat) (l : List Spawn) (sp : Spawn) :
    lastCommitSeen p (l ++ [sp]) = sp.seenAtCommit := by
  simp [lastCommitSeen, List.getLast?_concat]

theorem spawnsOk_append (w : List (Nat × ImseMessage)) :
    ∀ (l : List Spawn) (p : Nat) (sp : Spawn),
      spawnsOk w p (l ++ [sp]) ↔ spawnsOk w p l ∧ spawnOk w (lastCommitSeen p l) sp := by
  intro l
  induction l with
  | nil =>
      intro p sp
      simp [spawnsOk, lastCommitSeen]
  | cons x l2 ih =>
      intro p sp
      constructor
      · rintro ⟨h1, h2⟩
        have h2i := (ih x.seenAtCommit sp).mp h2
        exact ⟨⟨h1, h2i.1⟩, by rw [lastCommitSeen_cons]; exact h2i.2⟩
      · rintro ⟨⟨h1, h2⟩, h3⟩
        rw [lastCommitSeen_cons] at h3
        exact ⟨h1, (ih x.seenAtCommit sp).mpr ⟨h2, h3⟩⟩

theorem nextWake_time_le (env : TaskEnv) (s : SchedState) :
    s.time ≤ (nextWake env s).time := by
  unfold nextWake
  split
  · split <;> exact le_max_left _ _
  · split
    · split <;> exact le_max_left _ _
    · exact le_max_left _ _

theorem nextWake_changed (env : TaskEnv) (s : SchedState) (t : Nat)
    (hw : nextWake env s = .changed t) :
    ∃ x, env.writes.get? s.seen = some x ∧ x.1 ≤ t ∧ s.time ≤ t := by
  unfold nextWake at hw
  split at hw
  · rename_i w hg
    split at hw
    · injection hw with ht
      exact ⟨w, hg, ht ▸ le_max_right _ _, ht ▸ le_max_left _ _⟩
    · exact Wake.noConfusion hw
  · split at hw
    · split at hw
      · exact Wake.noConfusion hw
      · exact Wake.noConfusion hw
    · exact Wake.noConfusion hw

theorem executeStep_SchedInv (h : Handler) (env : TaskEnv) (s : SchedState)
    (hinv : SchedInv env.writes s) : SchedInv env.writes (h.executeStep env s) := by
  obtain ⟨hso, hlc, hcnt, hlat⟩ := hinv
  have hpay : s.latest = (if s.seen = lastCommitSeen 0 s.spawns then none
      else (env.writes.get? (s.seen - 1)).map (fun w => w.2)) := by
    by_cases hc : s.seen = lastCommitSeen 0 s.spawns
    · rw [if_pos hc]
      rw [if_pos hc] at hlat
      exact hlat
    · rw [if_neg hc]
      rw [if_neg hc] at hlat
      exact hlat
  refine ⟨?_, ?_, ?_, ?_⟩
  · show spawnsOk env.writes 0 (s.spawns ++ [⟨s.time, s.latest, s.seen⟩])
    rw [spawnsOk_append]
    exact ⟨hso, hlc, hpay⟩
  · show lastCommitSeen 0 (s.spawns ++ [⟨s.time, s.latest, s.seen⟩]) ≤ s.seen
    rw [lastCommitSeen_concat]
  · show s.seen ≤ observedCount env.writes (s.time + env.execDur)
    exact le_trans hcnt (observedCount_mono _ (Nat.le_add_right _ _))
  · show (if s.seen = lastCommitSeen 0 (s.spawns ++ [⟨s.time, s.latest, s.seen⟩])
          then (h.executeStep env s).latest = none
          else (h.executeStep env s).latest
            = (env.writes.get? (s.seen - 1)).map (fun w => w.2))
    rw [lastCommitSeen_concat]
    have hceq : s.seen = (Spawn.mk s.time s.latest s.seen).seenAtCommit := rfl
    rw [if_pos hceq]
    rfl

theorem gate_SchedInv (h : Handler) (g : Gcra) (env : TaskEnv) (s : SchedState)
    (hinv : SchedInv env.writes s) : SchedInv env.writes (h.gate g env s).state := by
  unfold Handler.gate
  by_cases hl : s.latest.isSome = true
  · rw [if_pos hl]
    cases hgc : gcraCheck g s.tat s.time with
    | deny earliest => exact ⟨hinv.1, hinv.2.1, hinv.2.2.1, hinv.2.2.2⟩
    | allow newTat =>
        exact executeStep_SchedInv h env { s with tat := some newTat }
          ⟨hinv.1, hinv.2.1, hinv.2.2.1, hinv.2.2.2⟩
  · rw [if_neg hl]
    exact executeStep_SchedInv h env s hinv

theorem step_SchedInv (h : Handler) (g : Gcra) (env : TaskEnv) (s : SchedState)
    (hsort : timesSorted env.writes = true) (hinv : SchedInv env.writes s) :
    SchedInv env.writes (h.step g env s).state := by
  obtain ⟨hso, hlc, hcnt, hlat⟩ := hinv
  unfold Handler.step
  cases hw : nextWake env s with
  | closed t =>
      have hts : s.time ≤ t := by
        have hh := nextWake_time_le env s
        rw [hw] at hh
        exact hh
      exact ⟨hso, hlc, le_trans hcnt (observedCount_mono _ hts), hlat⟩
  | timeout t =>
      have hts : s.time ≤ t := by
        have hh := nextWake_time_le env s
        rw [hw] at hh
        exact hh
      have hinv2 : SchedInv env.writes { s with time := t } :=
        ⟨hso, hlc, le_trans hcnt (observedCount_mono _ hts), hlat⟩
      dsimp only
      by_cases hcond : (s.latest.isNone && h.periodic.isNone) = true
      · rw [if_pos hcond]
        exact hinv2
      · rw [if_neg hcond]
        exact gate_SchedInv h g env { s with time := t } hinv2
  | changed t =>
      obtain ⟨x, hget, hxt, hst⟩ := nextWake_changed env s t hw
      have hge : s.seen + 1 ≤ observedCount env.writes t :=
        observedCount_ge env.writes t s.seen x hsort hget hxt
      have hpos : 0 < observedCount env.writes t := by omega
      have hslot : slotValue env.writes t
          = (env.writes.get? (observedCount env.writes t - 1)).map (fun w => w.2) := by
        unfold slotValue
        rw [slotValue_get env.writes t hsort hpos]
      have hinv2 : SchedInv env.writes
          { s with time := t, latest := slotValue env.writes t,
                   seen := observedCount env.writes t } := by
        refine ⟨hso, ?_, le_refl _, ?_⟩
        · show lastCommitSeen 0 s.spawns ≤ observedCount env.writes t
          omega
        have hne : ¬(observedCount env.writes t = lastCommitSeen 0 s.spawns) := by omega
        show (if observedCount env.writes t = lastCommitSeen 0 s.spawns
              then slotValue env.writes t = none
              else slotValue env.writes t
                = (env.writes.get? (observedCount env.writes t - 1)).map (fun w => w.2))
        rw [if_neg hne]
        exact hslot
      dsimp only
      by_cases hl : s.latest.isNone = true
      · rw [if_pos hl]
        cases hd : h.delay with
        | some d => exact ⟨hinv2.1, hinv2.2.1, hinv2.2.2.1, hinv2.2.2.2⟩
        | none => exact gate_SchedInv h g env _ hinv2
      · rw [if_neg hl]
        exact gate_SchedInv h g env _ hinv2

theorem run_SchedInv (h : Handler) (g : Gcra) (env : TaskEnv)
    (hsort : timesSorted env.writes = true) :
    ∀ (fuel : Nat) (s : SchedState), SchedInv env.writes s →
      SchedInv env.writes (h.run g env fuel s) := by
  intro fuel
  induction fuel with
  | zero => intro s hinv; exact hinv
  | succ n ih =>
      intro s hinv
      have hstep := step_SchedInv h g env s hsort hinv
      show SchedInv env.writes (match h.step g env s with
        | .halt s1 => s1
        | .cont s1 => h.run g env n s1)
      cases hs : h.step g env s with
      | halt s1 =>
          rw [hs] at hstep
          exact hstep
      | cont s1 =>
          rw [hs] at hstep
          exact ih s1 hstep

theorem gate_latest_or (h : Handler) (g : Gcra) (env : TaskEnv) (s : SchedState) :
    (h.gate g env s).state.latest = none ∨ (h.gate g env s).state.spawns = s.spawns := by
  unfold Handler.gate
  by_cases hl : s.latest.isSome = true
  · rw [if_pos hl]
    cases hgc : gcraCheck g s.tat s.time with
    | deny earliest => exact Or.inr rfl
    | allow newTat => exact Or.inl rfl
  · rw [if_neg hl]
    exact Or.inl rfl

theorem step_latest_or (h : Handler) (g : Gcra) (env : TaskEnv) (s : SchedState) :
    (h.step g env s).state.latest = none ∨ (h.step g env s).state.spawns = s.spawns := by
  unfold Handler.step
  cases hw : nextWake env s with
  | closed t => exact Or.inr rfl
  | timeout t =>
      dsimp only
      by_cases hcond : (s.latest.isNone && h.periodic.isNone) = true
      · rw [if_pos hcond]
        exact Or.inr rfl
      · rw [if_neg hcond]
        exact gate_latest_or h g env { s with time := t }
  | changed t =>
      dsimp only
      by_cases hl : s.latest.isNone = true
      · rw [if_pos hl]
        cases hd : h.delay with
        | some d => exact Or.inr rfl
        | none => exact gate_latest_or h g env _
      · rw [if_neg hl]
        exact gate_latest_or h g env _

/-- C5: latest-wins coalescing and commit-point clearing: for every
handler, limiter and time-ordered write schedule, every run from the
initial state yields a spawn list in which each spawn's payload is `none`
when no write was observed since the previous commit and otherwise equals
the most recent write observed by its commit point (`spawnsOk`); and any
iteration that commits a spawn leaves `latest` cleared at the commit. -/
theorem c5_latest_wins_coalescing :
    (∀ (h : Handler) (g : Gcra) (env : TaskEnv) (fuel : Nat),
      timesSorted env.writes = true →
      spawnsOk env.writes 0 (h.run g env fuel h.initState).spawns) ∧
    (∀ (h : Handler) (g : Gcra) (env : TaskEnv) (s : SchedState),
      (h.step g env s).state.spawns.length = s.spawns.length + 1 →
      (h.step g env s).state.latest = none) := by
  constructor
  · intro h g env fuel hsort
    have hinit : SchedInv env.writes h.initState := by
      refine ⟨trivial, le_refl _, Nat.zero_le _, ?_⟩
      show (if 0 = lastCommitSeen 0 ([] : List Spawn) then (none : Option ImseMessage) = none
            else (none : Option ImseMessage) = (env.writes.get? (0 - 1)).map (fun w => w.2))
      simp [lastCommitSeen]
    exact (run_SchedInv h g env hsort fuel h.initState hinit).1
  · intro h g env s hlen
    rcases step_latest_or h g env s with h1 | h1
    · exact h1
    · rw [h1] at hlen
      omega

theorem c5_latest_wins_coalescing_witness :
    spawnsOk envS5.writes 0 (hDelay5.run ⟨30, 30⟩ envS5 2 hDelay5.initState).spawns ∧
    (hDelay5.step ⟨30, 30⟩ envS5 csS5mid).state.latest = none :=
  ⟨(c5_latest_wins_coalescing).1 hDelay5 ⟨30, 30⟩ envS5 2 rfl,
   (c5_latest_wins_coalescing).2 hDelay5 ⟨30, 30⟩ envS5 csS5mid rfl⟩
